import Mathlib

/-!
Shallow embedding of the DivaPythonTools data-interchange layer
(`pydiva/pydiva2d.py`): the scatter-data, contour, parameter, mesh and
gridded-result entities, and their text-format parsers and serializers.

Files are modelled as lists of lines; a line is the list of its
whitespace-separated tokens.  A token is a numeric literal, either an
integer literal (accepted by Python `int(...)` and `float(...)`) or a
real literal (accepted by `float(...)` only, as `int("1.5")` raises
`ValueError`).  Reading past end-of-file (`readline` returning `''`,
whose `split()` is `[]`, so an index access raises `IndexError`) and any
`ValueError`/`IndexError` raised during parsing are modelled as a
`ParseError` result.
-/

namespace Diva

/-- A whitespace-separated numeric token of an input line: an integer
literal or a real (decimal-point) literal. -/
inductive Tok where
  | i : ℤ → Tok
  | r : ℚ → Tok
deriving DecidableEq

/-- Python `float(tok)`: both integer and real literals convert. -/
def Tok.toRat : Tok → ℚ
  | .i n => (n : ℚ)
  | .r q => q

/-- Python `int(tok)`: an integer literal converts, a real literal
raises `ValueError` (modelled as `none`). -/
def Tok.toInt : Tok → Option ℤ
  | .i n => some n
  | .r _ => none

/-- One line of a text file, as its list of tokens. -/
abbrev Line := List Tok

/-- A text file, as its list of lines. -/
abbrev DFile := List Line

/-- The error kinds of the layer: `parseError` for truncated or
malformed records, `shapeMismatch` for array-length violations at
construction, `typeError` for Python `TypeError` escaping a call,
`notFound` for a missing path. -/
inductive Err where
  | parseError
  | shapeMismatch
  | typeError
  | notFound
deriving DecidableEq

/-- A Python instance attribute: never assigned (`unset`, access raises
`AttributeError`), assigned the value `None` (`pynone`), or assigned an
actual array. -/
inductive Attr (α : Type) where
  | unset : Attr α
  | pynone : Attr α
  | val : α → Attr α
deriving DecidableEq

/-- `self.attr = optval` for an optional argument: Python `None` is
stored as `None`, an array is stored as is. -/
def attrOfOpt {α : Type} : Option α → Attr α
  | none => .pynone
  | some v => .val v

/-! ## Diva2DContours -/

/-- The contour entity after a successful parse: `x` and `y` hold, per
polyline, the list of its vertex coordinates (`Diva2DContours.x/.y`). -/
structure Contours where
  x : List (List ℚ)
  y : List (List ℚ)
deriving DecidableEq

/-- The `Diva2DContours` object with its two attributes, tracking
whether each was ever assigned (`Diva2DContours.__init__` can complete
without assigning them). -/
structure ContObj where
  x : Attr (List (List ℚ))
  y : Attr (List (List ℚ))
deriving DecidableEq

/-- `Diva2DContours.__init__(x, y)`: when either argument is `None`
both are stored as given; otherwise, on equal lengths both are stored,
and on unequal lengths an `Exception` is created but *not raised* (the
source lacks the `raise` keyword), so the constructor completes with
both coordinate attributes never assigned. -/
def divaContoursInit (x y : Option (List (List ℚ))) : Except Err ContObj :=
  if x.isNone || y.isNone then
    .ok ⟨attrOfOpt x, attrOfOpt y⟩
  else
    match x, y with
    | some xs, some ys =>
      if xs.length = ys.length then .ok ⟨.val xs, .val ys⟩
      else .ok ⟨.unset, .unset⟩
    | _, _ => .ok ⟨.unset, .unset⟩

/-- `int(f.readline().split()[0])`: consume one line and read its first
token as an integer; end-of-file, an empty line, or a non-integer first
token raise (`IndexError`/`ValueError`). -/
def readCount (ls : DFile) : Except Err (ℤ × DFile) :=
  match ls with
  | [] => .error .parseError
  | l :: rest =>
    match l.head? with
    | none => .error .parseError
    | some t =>
      match t.toInt with
      | some n => .ok (n, rest)
      | none => .error .parseError

/-- The inner loop `for pp in range(0, npoints)` of
`Diva2DContours.read_from`: consume `n` coordinate lines, each read as
`float(coords.split()[0])` and `float(coords.split()[1])`. -/
def readPts : Nat → DFile → Except Err (List ℚ × List ℚ × DFile)
  | 0, ls => .ok ([], [], ls)
  | _ + 1, [] => .error .parseError
  | n + 1, l :: ls =>
    match l[0]?, l[1]? with
    | some a, some b =>
      match readPts n ls with
      | .error e => .error e
      | .ok (xs, ys, rem) => .ok (a.toRat :: xs, b.toRat :: ys, rem)
    | _, _ => .error .parseError

/-- The outer loop `for nc in range(0, ncontour)` of
`Diva2DContours.read_from`: for each polyline, its point-count line then
that many coordinate lines. -/
def readConts : Nat → DFile → Except Err (List (List ℚ) × List (List ℚ) × DFile)
  | 0, ls => .ok ([], [], ls)
  | n + 1, ls =>
    match readCount ls with
    | .error e => .error e
    | .ok (np2, rest) =>
      match readPts np2.toNat rest with
      | .error e => .error e
      | .ok (xs, ys, rem) =>
        match readConts n rem with
        | .error e => .error e
        | .ok (xss, yss, rem2) => .ok (xs :: xss, ys :: yss, rem2)

/-- `Diva2DContours.read_from` on the file's lines, also returning the
unconsumed remainder of the file (the source simply stops reading). -/
def divaContoursReadAux (ls : DFile) : Except Err (Contours × DFile) :=
  match readCount ls with
  | .error e => .error e
  | .ok (n, rest) =>
    match readConts n.toNat rest with
    | .error e => .error e
    | .ok (xs, ys, rem) => .ok (⟨xs, ys⟩, rem)

/-- `Diva2DContours.read_from` (the line-by-line reader): global
polyline count, then per polyline a point count followed by that many
coordinate lines; trailing lines are ignored. -/
def divaContoursRead (ls : DFile) : Except Err Contours :=
  match divaContoursReadAux ls with
  | .error e => .error e
  | .ok (c, _) => .ok c

/-- One written coordinate line `' '.join((str(xx), str(yy)))`. -/
def ptLine (p : ℚ × ℚ) : Line := [Tok.r p.1, Tok.r p.2]

/-- `Diva2DContours.write_to`: the polyline count
(`self.get_contours_number = len(self.x)`), then for each index `i` the
point count `len(self.x[i])` followed by the lines of
`zip(self.x[i], self.y[i])`. -/
def divaContoursWrite (c : Contours) : DFile :=
  [Tok.i (c.x.length : ℤ)] ::
    (List.range c.x.length).flatMap (fun i =>
      [Tok.i ((c.x.getD i []).length : ℤ)] ::
        ((c.x.getD i []).zip (c.y.getD i [])).map ptLine)

/-- `Diva2DContours.to_geojson`: the `MultiPolygon` coordinates member,
one polygon per stored polyline, each polygon a single ring
`[[x, y] for x, y in zip(self.x[cont], self.y[cont])]` — no closing
vertex is appended. -/
def divaContoursGeojson (c : Contours) : List (List (List (ℚ × ℚ))) :=
  (List.range c.x.length).map (fun cont =>
    [(c.x.getD cont []).zip (c.y.getD cont [])])

/-- Modelled from the spec: the §4.3 multi-polygon export whose
"outer ring per polyline is the stored vertex sequence with the first
vertex appended again to close it"; stated for comparison with the
source's `divaContoursGeojson`. -/
def divaContoursGeojsonSpec (c : Contours) : List (List (List (ℚ × ℚ))) :=
  (List.range c.x.length).map (fun cont =>
    let ring := (c.x.getD cont []).zip (c.y.getD cont [])
    [ring ++ ring.take 1])

/-! ## Diva2DData -/

/-- The `Diva2DData` object with its four attributes, tracking whether
each was ever assigned. -/
structure DataObj where
  x : Attr (List ℚ)
  y : Attr (List ℚ)
  field : Attr (List ℚ)
  weight : Attr (List ℚ)
deriving DecidableEq

/-- `Diva2DData.__init__(x, y, field, weight)`, translated statement by
statement: the `None` branches assign `None` to attributes; a missing
`weight` with a present `field` is replaced by `[1] * len(field)`; the
final length comparison assigns all four attributes when the lengths
agree, raises (`Exception`, the shape mismatch) when they disagree, and
is skipped silently (`except TypeError`) when any of `x`, `y`, `field`
is `None` — leaving whatever attributes the earlier branches set. -/
def divaDataInit (x y field weight : Option (List ℚ)) : Except Err DataObj :=
  let o0 : DataObj := ⟨.unset, .unset, .unset, .unset⟩
  let o1 := if x.isNone then { o0 with x := .pynone } else o0
  let o2 := if y.isNone then { o1 with y := .pynone } else o1
  let o3 := if field.isNone then { o2 with field := .pynone, x := .pynone, y := .pynone } else o2
  let o4 :=
    if field.isNone && weight.isNone then
      { o3 with weight := .pynone, field := .pynone, x := .pynone, y := .pynone }
    else o3
  let weight2 :=
    if weight.isNone && field.isSome then
      some (List.replicate (field.getD []).length (1 : ℚ))
    else weight
  match x, y, field, weight2 with
  | some xs, some ys, some fs, some ws =>
    if xs.length = ys.length ∧ xs.length = fs.length ∧ fs.length = ws.length then
      .ok { o4 with x := .val xs, y := .val ys, field := .val fs, weight := .val ws }
    else
      .error .shapeMismatch
  | _, _, _, _ => .ok o4

/-- `Diva2DData.count_data`: `len(self.x)` with only `AttributeError`
caught (returning `0`); when `self.x` is `None`, `len(None)` raises an
uncaught `TypeError`. -/
def count_data (d : DataObj) : Except Err Nat :=
  match d.x with
  | .unset => .ok 0
  | .pynone => .error .typeError
  | .val v => .ok v.length

/-- The four row-wise columns read by `Diva2DData.read_from`. -/
structure DataRows where
  x : List ℚ
  y : List ℚ
  field : List ℚ
  weight : List ℚ
deriving DecidableEq

/-- `Diva2DData.read_from` on the file's lines: the `while ncols >= 3`
loop — each kept line contributes `float` of tokens 0, 1, 2, and token 3
when present, else a weight of `1.`; the loop stops at the first line
with fewer than 3 tokens (end-of-file gives the empty token list). -/
def divaDataRead : DFile → DataRows
  | [] => ⟨[], [], [], []⟩
  | l :: ls =>
    if 3 ≤ l.length then
      let rest := divaDataRead ls
      ⟨(l.getD 0 (.i 0)).toRat :: rest.x,
       (l.getD 1 (.i 0)).toRat :: rest.y,
       (l.getD 2 (.i 0)).toRat :: rest.field,
       (if 4 ≤ l.length then (l.getD 3 (.i 0)).toRat else 1) :: rest.weight⟩
    else ⟨[], [], [], []⟩

/-- The `Diva2DData` object produced by a successful `read_from`: all
four attributes assigned the parsed columns. -/
def divaDataReadObj (ls : DFile) : DataObj :=
  let rows := divaDataRead ls
  ⟨.val rows.x, .val rows.y, .val rows.field, .val rows.weight⟩

/-! ## Diva2DParameters -/

/-- Python truthiness of an optional float: `None` and `0.0` are falsy. -/
def truthyQ : Option ℚ → Bool
  | none => false
  | some q => !(q = 0)

/-- Python truthiness of an optional int: `None` and `0` are falsy. -/
def truthyZ : Option ℤ → Bool
  | none => false
  | some n => !(n = 0)

/-- Python `int(q)` on a float: truncation toward zero. -/
def ratTrunc (q : ℚ) : ℤ := Int.tdiv q.num (q.den : ℤ)

/-- The `Diva2DParameters` entity. -/
structure Params where
  cl : Option ℚ
  icoordchange : ℤ
  ispec : ℤ
  ireg : ℤ
  xori : Option ℚ
  yori : Option ℚ
  dx : Option ℚ
  dy : Option ℚ
  nx : Option ℤ
  ny : Option ℤ
  valex : ℚ
  snr : Option ℚ
  varbak : Option ℚ
  xend : Option ℚ
  yend : Option ℚ
deriving DecidableEq

/-- `Diva2DParameters.__init__`: stores the arguments and derives the
domain ends under `if self.nx and self.dx and self.xori:` — Python
*truthiness*, so a zero value (not only `None`) suppresses the
derivation and leaves `xend = None` (resp. `yend`). -/
def divaParamsInit (cl : Option ℚ) (icoordchange ispec ireg : ℤ)
    (xori yori dx dy : Option ℚ) (nx ny : Option ℤ)
    (valex : ℚ) (snr varbak : Option ℚ) : Params :=
  { cl := cl, icoordchange := icoordchange, ispec := ispec, ireg := ireg,
    xori := xori, yori := yori, dx := dx, dy := dy, nx := nx, ny := ny,
    valex := valex, snr := snr, varbak := varbak,
    xend :=
      if truthyZ nx && truthyQ dx && truthyQ xori then
        some (xori.getD 0 + ((nx.getD 0 : ℤ) - 1) * dx.getD 0)
      else none,
    yend :=
      if truthyZ ny && truthyQ dy && truthyQ yori then
        some (yori.getD 0 + ((ny.getD 0 : ℤ) - 1) * dy.getD 0)
      else none }

/-- `Diva2DParameters.read_from` after `np.loadtxt` recovered the 13
numeric values: integer fields are coerced with `int(...)` and the
domain ends are recomputed unconditionally. -/
def divaParamsReadVals (cl icoord ispec ireg xori yori dx dy nx ny valex snr varbak : ℚ) :
    Params :=
  { cl := some cl, icoordchange := ratTrunc icoord, ispec := ratTrunc ispec,
    ireg := ratTrunc ireg, xori := some xori, yori := some yori,
    dx := some dx, dy := some dy, nx := some (ratTrunc nx), ny := some (ratTrunc ny),
    valex := valex, snr := some snr, varbak := some varbak,
    xend := some (xori + ((ratTrunc nx : ℚ) - 1) * dx),
    yend := some (yori + ((ratTrunc ny : ℚ) - 1) * dy) }

/-! ## Diva2DMesh -/

/-- The `Diva2DMesh` entity after a successful `read_from`. -/
structure Mesh where
  nnodes : ℤ
  ninterfaces : ℤ
  nelements : ℤ
  xnode : List ℚ
  ynode : List ℚ
  i1 : List ℤ
  i2 : List ℤ
  i3 : List ℤ
deriving DecidableEq

/-- `int(f.readline().rstrip())`: the whole line must be a single
integer token. -/
def lineInt (l : Line) : Option ℤ :=
  match l with
  | [t] => t.toInt
  | _ => none

/-- The topology part of `Diva2DMesh.read_from`: three `readline`
calls, each line a single integer (`nnodes`, `ninterfaces`,
`nelements`). -/
def readTopo (topo : DFile) : Except Err (ℤ × ℤ × ℤ) :=
  match topo with
  | l1 :: l2 :: l3 :: _ =>
    match lineInt l1, lineInt l2, lineInt l3 with
    | some a, some b, some c => .ok (a, b, c)
    | _, _, _ => .error .parseError
  | _ => .error .parseError

/-- The node loop of `Diva2DMesh.read_from`: `n` lines, each
contributing `float(llines[1])` and `float(llines[2])`. -/
def readNodes : Nat → DFile → Except Err (List ℚ × List ℚ × DFile)
  | 0, ls => .ok ([], [], ls)
  | _ + 1, [] => .error .parseError
  | n + 1, l :: ls =>
    match l[1]?, l[2]? with
    | some a, some b =>
      match readNodes n ls with
      | .error e => .error e
      | .ok (xs, ys, rem) => .ok (a.toRat :: xs, b.toRat :: ys, rem)
    | _, _ => .error .parseError

/-- The interface loop of `Diva2DMesh.read_from`: `n` lines, each
`int(f.readline().rsplit()[0])`; the values are collected but never
stored in the entity. -/
def readIfaces : Nat → DFile → Except Err DFile
  | 0, ls => .ok ls
  | _ + 1, [] => .error .parseError
  | n + 1, l :: ls =>
    match l[0]?.bind Tok.toInt with
    | some _ => readIfaces n ls
    | none => .error .parseError

/-- The element loop of `Diva2DMesh.read_from`: `n` lines, each
contributing `int(llines[0]) - 1`, `int(llines[2]) - 1` and
`int(llines[4]) - 1` — the 1-based corner ids rebased by subtracting 1,
with no range validation whatsoever. -/
def readElems : Nat → DFile → Except Err (List ℤ × List ℤ × List ℤ × DFile)
  | 0, ls => .ok ([], [], [], ls)
  | _ + 1, [] => .error .parseError
  | n + 1, l :: ls =>
    match l[0]?.bind Tok.toInt, l[2]?.bind Tok.toInt, l[4]?.bind Tok.toInt with
    | some a, some b, some c =>
      match readElems n ls with
      | .error e => .error e
      | .ok (i1s, i2s, i3s, rem) => .ok ((a - 1) :: i1s, (b - 1) :: i2s, (c - 1) :: i3s, rem)
    | _, _, _ => .error .parseError

/-- `Diva2DMesh.read_from(filename1, filename2)`: the topology file
gives the three counts; the geometry file is consumed by the three
`while nlines < ...` loops, whose iteration counts are reproduced here
for an `nlines` counter that starts at 0 and increments once per line. -/
def divaMeshRead (geo topo : DFile) : Except Err Mesh :=
  match readTopo topo with
  | .error e => .error e
  | .ok (nn, ni, ne) =>
    let n1 := nn.toNat
    let n2 := (nn + ni - (n1 : ℤ)).toNat
    let n3 := (nn + ni + ne - (n1 : ℤ) - (n2 : ℤ)).toNat
    match readNodes n1 geo with
    | .error e => .error e
    | .ok (xs, ys, r1) =>
      match readIfaces n2 r1 with
      | .error e => .error e
      | .ok r2 =>
        match readElems n3 r2 with
        | .error e => .error e
        | .ok (i1s, i2s, i3s, _) => .ok ⟨nn, ni, ne, xs, ys, i1s, i2s, i3s⟩

/-! ## Diva2DResults -/

/-- A field value of the gridded result: IEEE not-a-number or an
ordinary number.  Multiplication is NaN-absorbing, exactly as in IEEE
arithmetic (`nan * a = nan` for every `a`), which is all the source
uses of float semantics (`np.nan * self.analysis`). -/
inductive FVal where
  | nan : FVal
  | num : ℚ → FVal
deriving DecidableEq

/-- NaN-absorbing multiplication. -/
def FVal.mul : FVal → FVal → FVal
  | .nan, _ => .nan
  | _, .nan => .nan
  | .num a, .num b => .num (a * b)

/-- The netCDF container as seen through named-array lookup: `x`, `y`,
`analyzed_field`, and optionally `error_field` (absence of the key
raises `KeyError` in the source). -/
structure NCContainer where
  x : List ℚ
  y : List ℚ
  analyzed_field : List (List FVal)
  error_field : Option (List (List FVal))
deriving DecidableEq

/-- The `Diva2DResults` entity. -/
structure Results where
  x : List ℚ
  y : List ℚ
  analysis : List (List FVal)
  error : List (List FVal)
deriving DecidableEq

/-- `Diva2DResults.read_from` on an opened container: the four arrays
are extracted; when `error_field` is absent the `KeyError` branch sets
`self.error = np.nan * self.analysis`, an elementwise product with NaN
of the analysis field's shape. -/
def divaResultsRead (nc : NCContainer) : Results :=
  { x := nc.x, y := nc.y, analysis := nc.analyzed_field,
    error :=
      match nc.error_field with
      | some e => e
      | none => nc.analyzed_field.map (fun row => row.map (fun a => FVal.mul .nan a)) }

/-! ## Shared lemmas -/

/-- Row-wise characterization of `divaDataRead`: the consumed lines are
exactly the longest prefix of lines with at least 3 tokens, and each
column is the corresponding token map over that prefix. -/
theorem divaDataRead_eq (ls : DFile) :
    divaDataRead ls =
      ⟨(ls.takeWhile fun l => decide (3 ≤ l.length)).map (fun l => (l.getD 0 (.i 0)).toRat),
       (ls.takeWhile fun l => decide (3 ≤ l.length)).map (fun l => (l.getD 1 (.i 0)).toRat),
       (ls.takeWhile fun l => decide (3 ≤ l.length)).map (fun l => (l.getD 2 (.i 0)).toRat),
       (ls.takeWhile fun l => decide (3 ≤ l.length)).map
         (fun l => if 4 ≤ l.length then (l.getD 3 (.i 0)).toRat else 1)⟩ := by
  induction ls with
  | nil => rfl
  | cons l ls ih =>
    by_cases h3 : 3 ≤ l.length
    · simp [divaDataRead, List.takeWhile_cons, h3, ih]
    · simp [divaDataRead, List.takeWhile_cons, h3]

/-- Reduction of `divaDataInit` when `x`, `y` and `field` are all
supplied: the weight defaults to all-ones sized to `field`, and the
length comparison decides between full assignment and the raised
shape-mismatch error. -/
theorem divaDataInit_all_some (xs ys fs : List ℚ) (ow : Option (List ℚ)) :
    divaDataInit (some xs) (some ys) (some fs) ow =
      if xs.length = ys.length ∧ xs.length = fs.length ∧
          fs.length = (ow.getD (List.replicate fs.length 1)).length then
        .ok ⟨.val xs, .val ys, .val fs, .val (ow.getD (List.replicate fs.length 1))⟩
      else .error .shapeMismatch := by
  cases ow <;> rfl

/-! ## Claims -/

/-- C10: constructing a `Diva2DContours` from `x` and `y` sequences of
unequal length raises no error and completes with both coordinate
attributes left unassigned — the length-mismatch `Exception` object is
created but never raised, so the caller receives a silently
partially-initialised object instead of a failure. -/
theorem divaContoursInit_mismatch_silent (xs ys : List (List ℚ))
    (h : xs.length ≠ ys.length) :
    divaContoursInit (some xs) (some ys) = .ok ⟨.unset, .unset⟩ := by
  simp [divaContoursInit, h]

theorem divaContoursInit_mismatch_silent_witness :
    ([[(0 : ℚ)]] : List (List ℚ)).length ≠ ([] : List (List ℚ)).length ∧
    divaContoursInit (some [[(0 : ℚ)]]) (some []) = .ok ⟨.unset, .unset⟩ :=
  ⟨by decide, divaContoursInit_mismatch_silent [[(0 : ℚ)]] [] (by decide)⟩

/-- C7: constructing a `Diva2DData` with `x`, `y` and `field` (value)
all supplied fails with the shape-mismatch error whenever the supplied
sequences (with the defaulted weight) do not all have equal length; and
when `weight` is omitted it is set to an all-ones sequence of the same
length as `field`. -/
theorem divaDataInit_shape (xs ys fs : List ℚ) (ow : Option (List ℚ)) :
    (¬(xs.length = ys.length ∧ xs.length = fs.length ∧
        fs.length = (ow.getD (List.replicate fs.length 1)).length) →
      divaDataInit (some xs) (some ys) (some fs) ow = .error .shapeMismatch) ∧
    (ow = none → xs.length = ys.length → xs.length = fs.length →
      divaDataInit (some xs) (some ys) (some fs) ow =
        .ok ⟨.val xs, .val ys, .val fs, .val (List.replicate fs.length 1)⟩) := by
  rw [divaDataInit_all_some]
  constructor
  · intro h
    rw [if_neg h]
  · rintro rfl h1 h2
    rw [if_pos ⟨h1, h2, by simp⟩]
    rfl

theorem divaDataInit_shape_witness :
    (¬((([0, 0, 0] : List ℚ)).length = ([0, 0, 0] : List ℚ).length ∧
        ([0, 0, 0] : List ℚ).length = ([1, 2] : List ℚ).length ∧
        ([1, 2] : List ℚ).length =
          ((none : Option (List ℚ)).getD (List.replicate ([1, 2] : List ℚ).length 1)).length) →
      divaDataInit (some [0, 0, 0]) (some [0, 0, 0]) (some [1, 2]) none =
        .error .shapeMismatch) ∧
    divaDataInit (some [0, 0, 0]) (some [0, 0, 0]) (some [1, 2]) none =
      .error .shapeMismatch :=
  ⟨(divaDataInit_shape [0, 0, 0] [0, 0, 0] [1, 2] none).1,
   (divaDataInit_shape [0, 0, 0] [0, 0, 0] [1, 2] none).1 (by decide)⟩

/-- C9 counterexample: the dataset constructed with no arguments (the
unconstructed dataset) has `x = None`, and `count_data` on it raises
`TypeError` (from `len(None)`, which the `except AttributeError` does
not catch) instead of returning 0 without error. -/
theorem count_data_unconstructed_raises :
    divaDataInit none none none none = .ok ⟨.pynone, .pynone, .pynone, .pynone⟩ ∧
    count_data ⟨.pynone, .pynone, .pynone, .pynone⟩ = .error .typeError :=
  ⟨rfl, rfl⟩

/-- C9 amended: `count_data` returns the row count for a fully
constructed or parsed dataset; it returns 0 without error only when the
`x` attribute was never assigned (as after a construction whose length
comparison hit a `TypeError`, e.g. `y` omitted while `x` and `field`
are given); and it raises `TypeError` when `x` was assigned `None`, as
after the no-argument construction. -/
theorem count_data_cases :
    (∀ (xs ys fs : List ℚ) (ow : Option (List ℚ)) (o : DataObj),
        divaDataInit (some xs) (some ys) (some fs) ow = .ok o →
        count_data o = .ok xs.length) ∧
    (∀ ls : DFile,
        count_data (divaDataReadObj ls) =
          .ok (ls.takeWhile fun l => decide (3 ≤ l.length)).length) ∧
    (∀ xs fs : List ℚ,
        divaDataInit (some xs) none (some fs) none =
          .ok ⟨.unset, .pynone, .unset, .unset⟩ ∧
        count_data ⟨.unset, .pynone, .unset, .unset⟩ = .ok 0) ∧
    count_data ⟨.pynone, .pynone, .pynone, .pynone⟩ = .error .typeError := by
  refine ⟨?_, ?_, ?_, rfl⟩
  · intro xs ys fs ow o h
    rw [divaDataInit_all_some] at h
    split at h
    · cases h
      rfl
    · cases h
  · intro ls
    simp [divaDataReadObj, count_data, divaDataRead_eq]
  · intro xs fs
    exact ⟨rfl, rfl⟩

theorem count_data_cases_witness :
    count_data ⟨.val [(0 : ℚ), 1], .val [0, 1], .val [5, 6], .val [1, 1]⟩ = .ok 2 :=
  count_data_cases.1 [0, 1] [0, 1] [5, 6] (some [1, 1])
    ⟨.val [(0 : ℚ), 1], .val [0, 1], .val [5, 6], .val [1, 1]⟩ (by rfl)

/-- C6: the constructor derives the domain end under Python truthiness,
so supplying `xori = 0` (with `dx = 0.5`, `nx = 11`) leaves
`xend = None` instead of the specified `5.0`; `read_from`, by contrast,
recomputes `xend = xori + (nx - 1) * dx` unconditionally and does yield
`5.0` on the same values — the constructor's truthiness test is the
slip. -/
theorem divaParams_xend_truthiness :
    (divaParamsInit (some 1) 0 0 0 (some 0) (some 0) (some (1/2)) (some (1/2))
        (some 11) (some 11) (-999) none none).xend = none ∧
    (divaParamsReadVals 1 0 0 0 0 0 (1/2) (1/2) 11 11 (-999) 1 1).xend = some 5 := by
  constructor
  · show (if truthyZ (some 11) && truthyQ (some (1/2)) && truthyQ (some 0) then _ else none) = none
    norm_num [truthyQ, truthyZ]
  · show some ((0 : ℚ) + ((ratTrunc 11 : ℚ) - 1) * (1/2)) = some 5
    norm_num [ratTrunc]

/-- C8: extracting a gridded result from a container that lacks the
`error_field` array yields an error array with exactly the analysis
array's shape whose every element is not-a-number. -/
theorem divaResultsRead_missing_error (nc : NCContainer)
    (h : nc.error_field = none) :
    (divaResultsRead nc).error.length = nc.analyzed_field.length ∧
    (∀ j : Nat, ((divaResultsRead nc).error[j]?).map List.length =
      (nc.analyzed_field[j]?).map List.length) ∧
    ∀ row ∈ (divaResultsRead nc).error, ∀ v ∈ row, v = FVal.nan := by
  refine ⟨?_, ?_, ?_⟩
  · simp [divaResultsRead, h]
  · intro j
    simp only [divaResultsRead, h, List.getElem?_map, Option.map_map]
    cases nc.analyzed_field[j]? <;> simp
  · intro row hrow v hv
    simp only [divaResultsRead, h, List.mem_map] at hrow
    obtain ⟨row0, _, rfl⟩ := hrow
    simp only [List.mem_map] at hv
    obtain ⟨a, _, rfl⟩ := hv
    cases a <;> rfl

theorem divaResultsRead_missing_error_witness :
    (⟨[0], [0, 1], [[.num 3, .nan]], none⟩ : NCContainer).error_field = none ∧
    ((divaResultsRead ⟨[0], [0, 1], [[.num 3, .nan]], none⟩).error.length =
        ([[FVal.num 3, FVal.nan]] : List (List FVal)).length ∧
      (∀ j : Nat,
        ((divaResultsRead ⟨[0], [0, 1], [[.num 3, .nan]], none⟩).error[j]?).map
            List.length =
          (([[FVal.num 3, FVal.nan]] : List (List FVal))[j]?).map List.length) ∧
      ∀ row ∈ (divaResultsRead ⟨[0], [0, 1], [[.num 3, .nan]], none⟩).error,
        ∀ v ∈ row, v = FVal.nan) :=
  ⟨rfl, divaResultsRead_missing_error ⟨[0], [0, 1], [[.num 3, .nan]], none⟩ rfl⟩

/-- C4: `Diva2DData.read_from` reads lines in order and stops at the
first line having fewer than 3 whitespace-separated tokens; every
consumed line with exactly 3 tokens gets weight `1.0`; in particular a
file whose every line is `"1.0 2.0 10.5"` yields weight 1 and value
10.5 for every row. -/
theorem divaDataRead_spec :
    ∀ ls : DFile,
      ((divaDataRead ls).field =
        (ls.takeWhile fun l => decide (3 ≤ l.length)).map
          (fun l => (l.getD 2 (.i 0)).toRat)) ∧
      ((divaDataRead ls).weight =
        (ls.takeWhile fun l => decide (3 ≤ l.length)).map
          (fun l => if 4 ≤ l.length then (l.getD 3 (.i 0)).toRat else 1)) ∧
      (∀ n : Nat,
        divaDataRead (List.replicate n [Tok.r 1, Tok.r 2, Tok.r (21/2)]) =
          ⟨List.replicate n 1, List.replicate n 2, List.replicate n (21/2),
           List.replicate n 1⟩) := by
  intro ls
  refine ⟨?_, ?_, ?_⟩
  · rw [divaDataRead_eq]
  · rw [divaDataRead_eq]
  · intro n
    induction n with
    | zero => rfl
    | succ k ih => simp [List.replicate_succ, divaDataRead, ih, Tok.toRat]

/-- Concrete contour set with one polyline of three distinct vertices,
used to exhibit the open ring emitted by `to_geojson`. -/
def contEx : Contours := ⟨[[0, 2, 0]], [[0, 0, 2]]⟩

/-- C5 counterexample: on a triangle polyline, the multi-polygon ring
emitted by `to_geojson` is exactly the stored vertex sequence, *not*
the sequence with its first vertex appended again — the emitted ring is
not explicitly closed, contradicting the claim. -/
theorem divaContoursGeojson_not_closed :
    divaContoursGeojson contEx ≠ divaContoursGeojsonSpec contEx ∧
    divaContoursGeojson contEx = [[[(0, 0), (2, 0), (0, 2)]]] := by
  constructor
  · decide
  · decide

/-- Index-to-zip bridge: mapping a two-list combinator over the index
range with `getD` access equals `zipWith` when the lengths agree. -/
theorem range_map_getD {α β γ : Type} (g : List α → List β → γ) :
    ∀ (xs : List (List α)) (ys : List (List β)), xs.length = ys.length →
      (List.range xs.length).map (fun i => g (xs.getD i []) (ys.getD i [])) =
        List.zipWith g xs ys := by
  intro xs
  induction xs with
  | nil => intro ys h; simp
  | cons x xr ih =>
    intro ys h
    cases ys with
    | nil => simp at h
    | cons y yr =>
      simp only [List.length_cons] at h
      have h' : xr.length = yr.length := Nat.succ_injective h
      have tl : (List.range xr.length).map
            ((fun i => g ((x :: xr).getD i []) ((y :: yr).getD i [])) ∘ Nat.succ) =
          List.zipWith g xr yr := by
        rw [List.map_congr_left (g := fun i => g (xr.getD i []) (yr.getD i []))
            (fun i _ => by simp [Function.comp, List.getD_cons_succ])]
        exact ih yr h'
      simp only [List.length_cons, List.range_succ_eq_map, List.map_cons, List.map_map,
        List.zipWith_cons_cons, List.getD_cons_zero]
      rw [tl]

/-- C5 amended: `to_geojson` emits one polygon per stored polyline
whose single ring is exactly the stored vertex sequence — the pointwise
zip of the polyline's `x` and `y` arrays — with no closing vertex
appended. -/
theorem divaContoursGeojson_rings (c : Contours) (h : c.x.length = c.y.length) :
    divaContoursGeojson c = List.zipWith (fun xs ys => [xs.zip ys]) c.x c.y :=
  range_map_getD (fun xs ys => [xs.zip ys]) c.x c.y h

theorem divaContoursGeojson_rings_witness :
    (contEx.x.length = contEx.y.length) ∧
    divaContoursGeojson contEx =
      List.zipWith (fun xs ys => [xs.zip ys]) contEx.x contEx.y :=
  ⟨rfl, divaContoursGeojson_rings contEx rfl⟩

/-! ### Mesh helper lemmas -/

/-- `readNodes` consumes exactly `n` lines. -/
theorem readNodes_rem :
    ∀ (n : Nat) (ls : DFile) xs ys rem,
      readNodes n ls = .ok (xs, ys, rem) → rem = ls.drop n := by
  intro n
  induction n with
  | zero =>
    intro ls xs ys rem h
    cases h
    rfl
  | succ n ih =>
    intro ls xs ys rem h
    cases ls with
    | nil => cases h
    | cons l ls' =>
      rw [readNodes] at h
      split at h
      · cases hrec : readNodes n ls' with
        | error e => rw [hrec] at h; cases h
        | ok t =>
          obtain ⟨xs', ys', rem'⟩ := t
          rw [hrec] at h
          cases h
          simpa using ih ls' xs' ys' _ hrec
      · cases h

/-- `readIfaces` consumes exactly `n` lines. -/
theorem readIfaces_rem :
    ∀ (n : Nat) (ls : DFile) rem, readIfaces n ls = .ok rem → rem = ls.drop n := by
  intro n
  induction n with
  | zero =>
    intro ls rem h
    cases h
    rfl
  | succ n ih =>
    intro ls rem h
    cases ls with
    | nil => cases h
    | cons l ls' =>
      rw [readIfaces] at h
      split at h
      · exact ih ls' _ h
      · cases h

/-- `readElems` stores, per consumed line, exactly the integer tokens
at positions 0, 2 and 4 each decremented by one — with no validation of
the resulting values. -/
theorem readElems_spec :
    ∀ (n : Nat) (ls : DFile) i1s i2s i3s rem,
      readElems n ls = .ok (i1s, i2s, i3s, rem) →
      i1s.length = n ∧
      ∀ j : Nat, j < n →
        i1s[j]? = ((ls[j]?.bind (fun l => l[0]?.bind Tok.toInt)).map (fun v => v - 1)) ∧
        i2s[j]? = ((ls[j]?.bind (fun l => l[2]?.bind Tok.toInt)).map (fun v => v - 1)) ∧
        i3s[j]? = ((ls[j]?.bind (fun l => l[4]?.bind Tok.toInt)).map (fun v => v - 1)) := by
  intro n
  induction n with
  | zero =>
    intro ls i1s i2s i3s rem h
    cases h
    exact ⟨rfl, fun j hj => absurd hj (Nat.not_lt_zero j)⟩
  | succ n ih =>
    intro ls i1s i2s i3s rem h
    cases ls with
    | nil => cases h
    | cons l ls' =>
      rw [readElems] at h
      split at h
      case h_1 a b c ha hb hc =>
        cases hrec : readElems n ls' with
        | error e => rw [hrec] at h; cases h
        | ok t =>
          obtain ⟨r1, r2, r3, rem'⟩ := t
          rw [hrec] at h
          cases h
          obtain ⟨hlen, hrest⟩ := ih ls' r1 r2 r3 _ hrec
          refine ⟨by simp [hlen], ?_⟩
          intro j hj
          cases j with
          | zero => simp [ha, hb, hc]
          | succ j =>
            have hj' : j < n := Nat.lt_of_succ_lt_succ hj
            simpa using hrest j hj'
      case h_2 => cases h

/-- Topology file declaring 3 nodes, 0 interfaces, 1 element. -/
def meshTopoEx : DFile := [[Tok.i 3], [Tok.i 0], [Tok.i 1]]

/-- Geometry file whose element line carries the 1-based corner index
4 = nnodes + 1 at token position 0. -/
def meshGeoEx : DFile :=
  [[Tok.i 1, Tok.r 0, Tok.r 0],
   [Tok.i 2, Tok.r 2, Tok.r 0],
   [Tok.i 3, Tok.r 0, Tok.r 2],
   [Tok.i 4, Tok.i 0, Tok.i 1, Tok.i 0, Tok.i 2, Tok.i 0]]

/-- The mesh the source builds from `meshGeoEx`/`meshTopoEx`: the
out-of-range rebased index 3 is stored in `i1`. -/
def meshEx : Mesh := ⟨3, 0, 1, [0, 2, 0], [0, 0, 2], [3], [0], [1]⟩

/-- C2 counterexample: parsing a geometry file with a 1-based corner
index of `nnodes + 1` *succeeds* — no `IndexOutOfRange` is raised — and
the stored rebased index equals `nnodes`, outside `[0, nnodes)`. -/
theorem divaMeshRead_out_of_range_ok :
    divaMeshRead meshGeoEx meshTopoEx = .ok meshEx ∧
    ¬(∀ v ∈ meshEx.i1, 0 ≤ v ∧ v < meshEx.nnodes) := by
  constructor
  · rfl
  · decide

/-- C2 amended: `Diva2DMesh.read_from` performs no range validation on
the element corner indices — on any successful parse, each stored value
of `i1`, `i2`, `i3` is exactly the integer token at position 0, 2, 4 of
the corresponding element line of the geometry file minus 1, never
clamped and never checked against `[0, nnodes)`. -/
theorem divaMeshRead_no_validation (geo topo : DFile) (m : Mesh)
    (h : divaMeshRead geo topo = .ok m)
    (hnn : 0 ≤ m.nnodes) (hni : 0 ≤ m.ninterfaces) :
    ∀ j : Nat, j < m.i1.length →
      m.i1[j]? = (((geo.drop (m.nnodes.toNat + m.ninterfaces.toNat))[j]?.bind
        (fun l => l[0]?.bind Tok.toInt)).map (fun v => v - 1)) ∧
      m.i2[j]? = (((geo.drop (m.nnodes.toNat + m.ninterfaces.toNat))[j]?.bind
        (fun l => l[2]?.bind Tok.toInt)).map (fun v => v - 1)) ∧
      m.i3[j]? = (((geo.drop (m.nnodes.toNat + m.ninterfaces.toNat))[j]?.bind
        (fun l => l[4]?.bind Tok.toInt)).map (fun v => v - 1)) := by
  simp only [divaMeshRead] at h
  split at h
  · cases h
  case h_2 nn ni ne htopo =>
    split at h
    · cases h
    case h_2 t1 xs ys r1 hnodes =>
      split at h
      · cases h
      case h_2 r2 hifaces =>
        split at h
        · cases h
        case h_2 t3 i1s i2s i3s rem helems =>
          cases h
          have hr1 : r1 = geo.drop nn.toNat := readNodes_rem _ geo xs ys r1 hnodes
          have hr2 : r2 = r1.drop ((nn + ni - (nn.toNat : ℤ)).toNat) :=
            readIfaces_rem _ r1 r2 hifaces
          have hcast : ((nn.toNat : ℤ)) = nn := Int.toNat_of_nonneg hnn
          have hn2 : ((nn + ni - (nn.toNat : ℤ)).toNat) = ni.toNat := by
            rw [hcast]
            congr 1
            ring
          obtain ⟨hlen, hrest⟩ := readElems_spec _ r2 i1s i2s i3s rem helems
          intro j hj
          have hj' : j < (nn + ni + ne - (nn.toNat : ℤ) - ((nn + ni - (nn.toNat : ℤ)).toNat : ℤ)).toNat := by
            simpa [hlen] using hj
          have := hrest j hj'
          rw [hr2, hr1, hn2, List.drop_drop] at this
          simpa [Nat.add_comm] using this

theorem divaMeshRead_no_validation_witness :
    divaMeshRead meshGeoEx meshTopoEx = .ok meshEx ∧ 0 ≤ meshEx.nnodes ∧
    0 ≤ meshEx.ninterfaces ∧ 0 < meshEx.i1.length ∧
    (meshEx.i1[0]? = (((meshGeoEx.drop (meshEx.nnodes.toNat + meshEx.ninterfaces.toNat))[0]?.bind
        (fun l => l[0]?.bind Tok.toInt)).map (fun v => v - 1)) ∧
      meshEx.i2[0]? = (((meshGeoEx.drop (meshEx.nnodes.toNat + meshEx.ninterfaces.toNat))[0]?.bind
        (fun l => l[2]?.bind Tok.toInt)).map (fun v => v - 1)) ∧
      meshEx.i3[0]? = (((meshGeoEx.drop (meshEx.nnodes.toNat + meshEx.ninterfaces.toNat))[0]?.bind
        (fun l => l[4]?.bind Tok.toInt)).map (fun v => v - 1))) :=
  ⟨rfl, by decide, by decide, by decide,
   divaMeshRead_no_validation meshGeoEx meshTopoEx meshEx rfl (by decide) (by decide)
     0 (by decide)⟩

/-! ### Contour parser lemmas -/

/-- A successful `readCount` consumes exactly the head line, whose
first token is an integer literal. -/
theorem readCount_ok :
    ∀ {ls : DFile} {n : ℤ} {rest : DFile}, readCount ls = .ok (n, rest) →
      ∃ l t, ls = l :: rest ∧ l.head? = some t ∧ t.toInt = some n := by
  intro ls n rest h
  cases ls with
  | nil => cases h
  | cons l ls' =>
    rw [readCount] at h
    split at h
    · cases h
    case h_2 t ht =>
      split at h
      case h_1 m hm =>
        cases h
        exact ⟨l, t, rfl, ht, hm⟩
      · cases h

/-- Computation of `readCount` on a cons from its head line's first
token. -/
theorem readCount_cons_of {x : Line} {t : Tok} {n : ℤ} (ht : x.head? = some t)
    (htok : t.toInt = some n) (r : DFile) :
    readCount (x :: r) = .ok (n, r) := by
  show (match x.head? with
    | none => Except.error Err.parseError
    | some t =>
      match t.toInt with
      | some n => Except.ok (n, r)
      | none => Except.error Err.parseError) = _
  simp only [ht, htok]

/-- `readPts` consumes exactly `n` lines. -/
theorem readPts_rem :
    ∀ (n : Nat) (ls : DFile) xs ys rem,
      readPts n ls = .ok (xs, ys, rem) → rem = ls.drop n ∧ n ≤ ls.length := by
  intro n
  induction n with
  | zero =>
    intro ls xs ys rem h
    cases h
    exact ⟨rfl, Nat.zero_le _⟩
  | succ n ih =>
    intro ls xs ys rem h
    cases ls with
    | nil => cases h
    | cons l ls' =>
      rw [readPts] at h
      split at h
      case h_1 a b ha hb =>
        cases hrec : readPts n ls' with
        | error e => rw [hrec] at h; cases h
        | ok t3 =>
          obtain ⟨xs', ys', rem'⟩ := t3
          rw [hrec] at h
          cases h
          obtain ⟨h1, h2⟩ := ih ls' xs' ys' _ hrec
          exact ⟨by simpa using h1, by simpa using Nat.succ_le_succ h2⟩
      · cases h

/-- On a strict prefix shorter than the declared point count, `readPts`
runs out of lines and fails with the parse error that models the
end-of-file `IndexError`. -/
theorem readPts_pre_err :
    ∀ (n : Nat) (ls pre : DFile) xs ys rem,
      readPts n ls = .ok (xs, ys, rem) → pre <+: ls → pre.length < n →
      readPts n pre = .error .parseError := by
  intro n
  induction n with
  | zero =>
    intro ls pre xs ys rem _ _ hlt
    exact absurd hlt (Nat.not_lt_zero _)
  | succ n ih =>
    intro ls pre xs ys rem h hpre hlt
    cases ls with
    | nil => cases h
    | cons l ls' =>
      rw [readPts] at h
      split at h
      case h_1 a b ha hb =>
        cases hrec : readPts n ls' with
        | error e => rw [hrec] at h; cases h
        | ok t3 =>
          obtain ⟨xs', ys', rem'⟩ := t3
          rw [hrec] at h
          cases h
          cases pre with
          | nil => rfl
          | cons p0 pre' =>
            obtain ⟨hp0, hpre'⟩ := (List.cons_prefix_cons.mp hpre)
            have hih := ih ls' pre' xs' ys' _ hrec hpre' (Nat.lt_of_succ_lt_succ hlt)
            rw [hp0, readPts, ha, hb]
            dsimp only
            rw [hih]
      · cases h

/-- On a prefix at least as long as the declared point count, `readPts`
reads the same points and leaves the prefix's remainder. -/
theorem readPts_pre_ok :
    ∀ (n : Nat) (ls pre : DFile) xs ys rem,
      readPts n ls = .ok (xs, ys, rem) → pre <+: ls → n ≤ pre.length →
      readPts n pre = .ok (xs, ys, pre.drop n) := by
  intro n
  induction n with
  | zero =>
    intro ls pre xs ys rem h _ _
    cases ls with
    | nil => cases h; rfl
    | cons l ls' => cases h; rfl
  | succ n ih =>
    intro ls pre xs ys rem h hpre hle
    cases ls with
    | nil => cases h
    | cons l ls' =>
      rw [readPts] at h
      split at h
      case h_1 a b ha hb =>
        cases hrec : readPts n ls' with
        | error e => rw [hrec] at h; cases h
        | ok t3 =>
          obtain ⟨xs', ys', rem'⟩ := t3
          rw [hrec] at h
          cases h
          cases pre with
          | nil => exact absurd hle (by simp)
          | cons p0 pre' =>
            obtain ⟨hp0, hpre'⟩ := (List.cons_prefix_cons.mp hpre)
            have hih := ih ls' pre' xs' ys' _ hrec hpre' (Nat.le_of_succ_le_succ hle)
            rw [hp0, readPts, ha, hb]
            dsimp only
            rw [hih]
            rfl
      · cases h

/-- A successful `readConts` leaves a remainder no longer than its
input. -/
theorem readConts_rem_le :
    ∀ (k : Nat) (ls : DFile) xs ys rem,
      readConts k ls = .ok (xs, ys, rem) → rem.length ≤ ls.length := by
  intro k
  induction k with
  | zero =>
    intro ls xs ys rem h
    cases h
    exact Nat.le_refl _
  | succ k ih =>
    intro ls xs ys rem h
    rw [readConts] at h
    split at h
    · cases h
    case h_2 t0 np rest hcount =>
      split at h
      · cases h
      case h_2 t1 x1 y1 rem1 hpts =>
        split at h
        · cases h
        case h_2 t2 xs' ys' rem2 hconts =>
          cases h
          obtain ⟨l, t, rfl, _, _⟩ := readCount_ok hcount
          obtain ⟨hrem1, hle1⟩ := readPts_rem _ rest x1 y1 rem1 hpts
          have h1 : rem1.length ≤ rest.length := by
            rw [hrem1, List.length_drop]
            exact Nat.sub_le _ _
          have h2 := ih rem1 xs' ys' _ hconts
          simp only [List.length_cons]
          omega

/-- On a strict prefix of a file on which `readConts` succeeds, shorter
than what that run consumed, `readConts` fails with a parse error. -/
theorem readConts_pre :
    ∀ (k : Nat) (ls pre : DFile) xs ys rem,
      readConts k ls = .ok (xs, ys, rem) → pre <+: ls →
      pre.length < ls.length - rem.length →
      readConts k pre = .error .parseError := by
  intro k
  induction k with
  | zero =>
    intro ls pre xs ys rem h _ hlt
    cases h
    simp at hlt
  | succ k ih =>
    intro ls pre xs ys rem h hpre hlt
    rw [readConts] at h
    split at h
    · cases h
    case h_2 t0 np rest hcount =>
      split at h
      · cases h
      case h_2 t1 x1 y1 rem1 hpts =>
        split at h
        · cases h
        case h_2 t2 xs' ys' rem2 hconts =>
          cases h
          obtain ⟨l, t, rfl, ht, htok⟩ := readCount_ok hcount
          obtain ⟨hrem1, hle1⟩ := readPts_rem _ rest x1 y1 rem1 hpts
          cases pre with
          | nil => rfl
          | cons p0 pre' =>
            obtain ⟨hp0, hpre'⟩ := (List.cons_prefix_cons.mp hpre)
            rw [readConts, hp0, readCount_cons_of ht htok pre']
            dsimp only
            by_cases hc : pre'.length < np.toNat
            · rw [readPts_pre_err np.toNat rest pre' x1 y1 rem1 hpts hpre' hc]
            · have hcge : np.toNat ≤ pre'.length := Nat.le_of_not_lt hc
              rw [readPts_pre_ok np.toNat rest pre' x1 y1 rem1 hpts hpre' hcge]
              dsimp only
              have hdrop_pre : pre'.drop np.toNat <+: rem1 := by
                obtain ⟨tail, rfl⟩ := hpre'
                rw [hrem1, List.drop_append_of_le_length hcge]
                exact ⟨tail, rfl⟩
              have hlen : (pre'.drop np.toNat).length < rem1.length - rem.length := by
                have e1 : rem1.length = rest.length - np.toNat := by
                  rw [hrem1]; simp
                have e2 : rem.length ≤ rem1.length :=
                  readConts_rem_le k rem1 xs' ys' _ hconts
                simp only [List.length_cons, List.length_drop] at hlt ⊢
                omega
              rw [ih rem1 (pre'.drop np.toNat) xs' ys' _ hconts hdrop_pre hlen]

/-- C1: for every contour file whose declared polyline count or one of
whose declared point counts exceeds the records actually present — a
truncated file, i.e. a strict prefix of a file that a full run parses
while consuming every line — `read_from` fails with a parse error and
never returns an entity (so never one with fewer or shorter polylines
than declared). -/
theorem divaContoursRead_truncated (full pre : DFile) (c : Contours)
    (hfull : divaContoursReadAux full = .ok (c, []))
    (hpre : pre <+: full) (hlt : pre.length < full.length) :
    divaContoursRead pre = .error .parseError := by
  rw [divaContoursReadAux] at hfull
  split at hfull
  · cases hfull
  case h_2 t0 n rest hcount =>
    split at hfull
    · cases hfull
    case h_2 t1 xs ys rem hconts =>
      cases hfull
      obtain ⟨l, t, rfl, ht, htok⟩ := readCount_ok hcount
      cases pre with
      | nil => rfl
      | cons p0 pre' =>
        obtain ⟨hp0, hpre'⟩ := (List.cons_prefix_cons.mp hpre)
        have hconts' : readConts n.toNat pre' = .error .parseError := by
          refine readConts_pre n.toNat rest pre' xs ys [] hconts hpre' ?_
          simpa using Nat.lt_of_succ_lt_succ hlt
        rw [divaContoursRead, divaContoursReadAux, hp0,
          readCount_cons_of ht htok pre']
        dsimp only
        rw [hconts']

/-- A well-formed 4-line contour file: one polyline of two points. -/
def contFullEx : DFile :=
  [[Tok.i 1], [Tok.i 2], [Tok.r 0, Tok.r 0], [Tok.r 1, Tok.r 1]]

/-- `contFullEx` truncated after the first coordinate line: the
declared point count 2 exceeds the single record present. -/
def contTruncEx : DFile := [[Tok.i 1], [Tok.i 2], [Tok.r 0, Tok.r 0]]

theorem divaContoursRead_truncated_witness :
    divaContoursReadAux contFullEx = .ok (⟨[[0, 1]], [[0, 1]]⟩, []) ∧
    contTruncEx <+: contFullEx ∧ contTruncEx.length < contFullEx.length ∧
    divaContoursRead contTruncEx = .error .parseError :=
  ⟨rfl, ⟨[[Tok.r 1, Tok.r 1]], rfl⟩, by decide,
   divaContoursRead_truncated contFullEx contTruncEx ⟨[[0, 1]], [[0, 1]]⟩ rfl
     ⟨[[Tok.r 1, Tok.r 1]], rfl⟩ (by decide)⟩

/-! ### Round-trip lemmas -/

/-- The lines `write_to` emits for one polyline: its point count, then
its coordinate lines. -/
def contBlock (xs ys : List ℚ) : DFile :=
  [Tok.i (xs.length : ℤ)] :: (xs.zip ys).map ptLine

/-- Index-to-zip bridge for flat-mapped blocks. -/
theorem range_flatMap_getD {α β γ : Type} (g : List α → List β → List γ)
    (xs : List (List α)) (ys : List (List β)) (h : xs.length = ys.length) :
    (List.range xs.length).flatMap (fun i => g (xs.getD i []) (ys.getD i [])) =
      (List.zipWith g xs ys).flatten := by
  rw [show (List.range xs.length).flatMap (fun i => g (xs.getD i []) (ys.getD i [])) =
      ((List.range xs.length).map (fun i => g (xs.getD i []) (ys.getD i []))).flatten from rfl,
    range_map_getD g xs ys h]

/-- `write_to` emits the polyline count line followed by the polyline
blocks in order. -/
theorem divaContoursWrite_blocks (c : Contours) (h : c.x.length = c.y.length) :
    divaContoursWrite c =
      [Tok.i (c.x.length : ℤ)] :: (List.zipWith contBlock c.x c.y).flatten := by
  rw [divaContoursWrite]
  exact congrArg _ (range_flatMap_getD contBlock c.x c.y h)

/-- Parsing back the coordinate lines written for one polyline yields
its points and leaves the rest. -/
theorem readPts_append :
    ∀ (xs ys : List ℚ), xs.length = ys.length → ∀ rest : DFile,
      readPts xs.length ((xs.zip ys).map ptLine ++ rest) = .ok (xs, ys, rest) := by
  intro xs
  induction xs with
  | nil =>
    intro ys h rest
    cases ys with
    | nil => rfl
    | cons b yr => simp at h
  | cons a xr ih =>
    intro ys h rest
    cases ys with
    | nil => simp at h
    | cons b yr =>
      have h' : xr.length = yr.length := by simpa using h
      show readPts (xr.length + 1) (ptLine (a, b) :: ((xr.zip yr).map ptLine ++ rest)) = _
      rw [readPts]
      show (match (ptLine (a, b))[0]?, (ptLine (a, b))[1]? with
        | some a, some b =>
          match readPts xr.length ((xr.zip yr).map ptLine ++ rest) with
          | Except.error e => Except.error e
          | Except.ok (xs, ys, rem) => Except.ok (a.toRat :: xs, b.toRat :: ys, rem)
        | _, _ => Except.error Err.parseError) = _
      rw [ih yr h' rest]
      rfl

/-- Parsing back the blocks written for a shape-consistent polyline
family yields exactly that family and leaves the rest. -/
theorem readConts_append :
    ∀ {xs ys : List (List ℚ)},
      List.Forall₂ (fun a b => a.length = b.length) xs ys → ∀ rest : DFile,
      readConts xs.length ((List.zipWith contBlock xs ys).flatten ++ rest) =
        .ok (xs, ys, rest) := by
  intro xs ys h
  induction h with
  | nil => intro rest; rfl
  | @cons a b xr yr hab htl ih =>
    intro rest
    show readConts (xr.length + 1)
        ((contBlock a b ++ (List.zipWith contBlock xr yr).flatten) ++ rest) = _
    rw [readConts, List.append_assoc, contBlock, List.cons_append]
    rw [readCount_cons_of (x := Tok.i (a.length : ℤ) :: []) rfl rfl _]
    dsimp only
    rw [show ((a.length : ℤ)).toNat = a.length from Int.toNat_natCast a.length]
    rw [readPts_append a b hab ((List.zipWith contBlock xr yr).flatten ++ rest)]
    dsimp only
    rw [ih rest]

/-- C3: for every contour set of zero or more polylines, each with at
least one point and consistent `x`/`y` shapes, parsing the file written
for it yields the same contour set — same polyline count, same
per-polyline point counts, same coordinates. -/
theorem divaContours_roundtrip (c : Contours)
    (hshape : List.Forall₂ (fun a b => a.length = b.length) c.x c.y)
    (_hpts : ∀ p ∈ c.x, p ≠ []) :
    divaContoursRead (divaContoursWrite c) = .ok c := by
  have hlen : c.x.length = c.y.length := hshape.length_eq
  rw [divaContoursRead, divaContoursReadAux, divaContoursWrite_blocks c hlen,
    readCount_cons_of (x := Tok.i (c.x.length : ℤ) :: []) rfl rfl _]
  dsimp only
  rw [show ((c.x.length : ℤ)).toNat = c.x.length from Int.toNat_natCast c.x.length]
  have := readConts_append hshape []
  rw [List.append_nil] at this
  rw [this]

theorem divaContours_roundtrip_witness :
    List.Forall₂ (fun a b => a.length = b.length)
      ([[0, 1]] : List (List ℚ)) ([[2, 3]] : List (List ℚ)) ∧
    (∀ p ∈ ([[0, 1]] : List (List ℚ)), p ≠ []) ∧
    divaContoursRead (divaContoursWrite ⟨[[0, 1]], [[2, 3]]⟩) =
      .ok ⟨[[0, 1]], [[2, 3]]⟩ :=
  ⟨List.Forall₂.cons rfl List.Forall₂.nil, by decide,
   divaContours_roundtrip ⟨[[0, 1]], [[2, 3]]⟩
     (List.Forall₂.cons rfl List.Forall₂.nil) (by decide)⟩

end Diva
